import Mathlib

/-!
Shallow embedding of `src/src/DataConsolidator.h` (rvtests data
consolidation core) and verification of the specification claims.

Modelling conventions:
* C `double` values are embedded as `ℚ`; all genotype/phenotype/covariate
  cell values are rationals.
* The external matrix container (`libsrc/MathMatrix.h`, consumed at its
  interface per the spec) is embedded as `Mat`: explicit `rows`/`cols`
  window over a total data function plus a total column-label function.
  `Dimension` changes the window only; indexed reads/writes act on the
  data function; equality compares the window.
* The external pseudo-random source is a stream of rationals plus a
  position; `Next()` reads the stream and advances the position.
* I/O (logger calls, warnings) is dropped; it does not affect the data.
-/

/-- Conversion of a rational (embedding a C `double`) to a C `int`:
truncation toward zero. -/
def truncToInt (x : ℚ) : ℤ :=
  if 0 ≤ x then ⌊x⌋ else ⌈x⌉

/-- Modelled from the spec: the matrix/vector container consumed at its
interface (dimension/resize, indexed read/write, column-label get/set,
equality comparison).  `rows × cols` is the valid window of the total
`data` function. -/
structure Mat where
  rows : ℕ
  cols : ℕ
  data : ℕ → ℕ → ℚ
  labels : ℕ → String

/-- Modelled from the spec: `Matrix::Dimension(r, c)` sets the window,
preserving cell content. -/
def Mat.Dimension (m : Mat) (r c : ℕ) : Mat :=
  { m with rows := r, cols := c }

/-- Modelled from the spec: matrix equality comparison (dims and window
content), used by `consolidate` to detect the "updated" state. -/
def Mat.eqb (a b : Mat) : Bool :=
  decide (a.rows = b.rows) && decide (a.cols = b.cols) &&
    (List.range a.rows).all fun r =>
      (List.range a.cols).all fun c => decide (a.data r c = b.data r c)

/-- Window-extensional equality of matrices: same dims, same content on
the valid window. -/
def Mat.WEq (a b : Mat) : Prop :=
  a.rows = b.rows ∧ a.cols = b.cols ∧
    ∀ r c, r < a.rows → c < a.cols → a.data r c = b.data r c

/-- Pointwise update of a data function at one cell. -/
def updD (d : ℕ → ℕ → ℚ) (r c : ℕ) (v : ℚ) : ℕ → ℕ → ℚ :=
  fun r2 c2 => if r2 = r ∧ c2 = c then v else d r2 c2

/-- Modelled from the spec: the pseudo-random source; `next` returns a
value and the advanced source. -/
structure RandSrc where
  stream : ℕ → ℚ
  pos : ℕ

def RandSrc.next (r : RandSrc) : ℚ × RandSrc :=
  (r.stream r.pos, { r with pos := r.pos + 1 })

/-- Equal-state relation on random sources: same position, same stream. -/
def RandSrc.SEq (a b : RandSrc) : Prop :=
  a.pos = b.pos ∧ ∀ k, a.stream k = b.stream k

/-- One row of the per-column accumulation `ac += m[j][i]; an += 2` over
non-missing entries.  `ac` is a C `int`, so each `ac += m[j][i]`
truncates the intermediate double sum toward zero. -/
def acAnStep (m : Mat) (i : ℕ) (acan : ℤ × ℤ) (j : ℕ) : ℤ × ℤ :=
  if 0 ≤ m.data j i then (truncToInt ((acan.1 : ℚ) + m.data j i), acan.2 + 2) else acan

/-- The per-column `ac`/`an` accumulation loop, written identically in
`imputeGenotypeByFrequency` and `imputeGenotypeToMean`. -/
def colAcAn (m : Mat) (i : ℕ) : ℤ × ℤ :=
  (List.range m.rows).foldl (acAnStep m i) (0, 0)

/-- One column step of `imputeGenotypeToMean`: compute `p` from the
non-missing entries of column `i` and overwrite every missing cell of
that column with `2 p`. -/
def meanImputeCol (m : Mat) (i : ℕ) : Mat :=
  let acan := colAcAn m i
  let p : ℚ := if acan.2 = 0 then 0 else (acan.1 : ℚ) / (acan.2 : ℚ)
  let g := 2 * p
  { m with data := fun r c => if c = i ∧ r < m.rows ∧ m.data r c < 0 then g else m.data r c }

/-- `imputeGenotypeToMean` from `DataConsolidator.h`: per-column mean
imputation of missing (negative) genotypes. -/
def imputeGenotypeToMean (m0 : Mat) : Mat :=
  (List.range m0.cols).foldl meanImputeCol m0

/-- One cell step of the inner loop of `imputeGenotypeByFrequency`: a
missing cell draws one random value and becomes 0/1/2 by the cumulative
thresholds `pRef`/`pHet`. -/
def hweImputeCell (i : ℕ) (pRef pHet : ℚ) (mr : Mat × RandSrc) (j : ℕ) : Mat × RandSrc :=
  if mr.1.data j i < 0 then
    let vr := mr.2.next
    let g : ℚ := if vr.1 < pRef then 0 else if vr.1 < pHet then 1 else 2
    ({ mr.1 with data := updD mr.1.data j i g }, vr.2)
  else mr

/-- One column step of `imputeGenotypeByFrequency`. -/
def hweImputeCol (mr : Mat × RandSrc) (i : ℕ) : Mat × RandSrc :=
  let acan := colAcAn mr.1 i
  let p : ℚ := if acan.2 = 0 then 0 else (acan.1 : ℚ) / (acan.2 : ℚ)
  let pRef := p * p
  let pHet := pRef + 2 * p * (1 - p)
  (List.range mr.1.rows).foldl (hweImputeCell i pRef pHet) mr

/-- `imputeGenotypeByFrequency` from `DataConsolidator.h`: stochastic
HWE-based imputation of missing genotypes, threading the random source. -/
def imputeGenotypeByFrequency (m0 : Mat) (r0 : RandSrc) : Mat × RandSrc :=
  (List.range m0.cols).foldl hweImputeCol (m0, r0)

/-- `GenotypeCounter` from `DataConsolidator.h`: per-marker running
tallies. -/
structure GenotypeCounter where
  nHomRef : ℤ
  nHet : ℤ
  nHomAlt : ℤ
  nMissing : ℤ
  nSample : ℤ
  sumAC : ℚ

/-- `GenotypeCounter::reset()`: all tallies zero (also the constructed
state). -/
def GenotypeCounter.reset : GenotypeCounter :=
  { nHomRef := 0, nHet := 0, nHomAlt := 0, nMissing := 0, nSample := 0, sumAC := 0 }

/-- `GenotypeCounter::add(g)`.  Note the source sequencing: the `g < 0`
check is a separate `if` (not an `else if`), after which the
threshold chain runs on the same value, and `nSample` is always
incremented. -/
def GenotypeCounter.add (c0 : GenotypeCounter) (g : ℚ) : GenotypeCounter :=
  let c1 := if g < 0 then { c0 with nMissing := c0.nMissing + 1 } else c0
  let c2 :=
    if g < 2 / 3 then { c1 with nHomRef := c1.nHomRef + 1, sumAC := c1.sumAC + g }
    else if g < 4 / 3 then { c1 with nHet := c1.nHet + 1, sumAC := c1.sumAC + g }
    else if g ≤ 2 then { c1 with nHomAlt := c1.nHomAlt + 1, sumAC := c1.sumAC + g }
    else { c1 with nMissing := c1.nMissing + 1 }
  { c2 with nSample := c2.nSample + 1 }

def GenotypeCounter.getNumHomRef (c : GenotypeCounter) : ℤ := c.nHomRef

def GenotypeCounter.getNumHet (c : GenotypeCounter) : ℤ := c.nHet

def GenotypeCounter.getNumHomAlt (c : GenotypeCounter) : ℤ := c.nHomAlt

def GenotypeCounter.getNumMissing (c : GenotypeCounter) : ℤ := c.nMissing

def GenotypeCounter.getNumSample (c : GenotypeCounter) : ℤ := c.nSample

/-- `GenotypeCounter::getCallRate()`. -/
def GenotypeCounter.getCallRate (c : GenotypeCounter) : ℚ :=
  if c.nSample ≠ 0 then 1 - (c.nMissing : ℚ) / (c.nSample : ℚ) else 0

/-- `GenotypeCounter::getAF()`. -/
def GenotypeCounter.getAF (c : GenotypeCounter) : ℚ :=
  if c.nSample ≠ 0 then 1 / 2 * c.sumAC / (c.nSample : ℚ) else -1

/-- `GenotypeCounter::getAC()`. -/
def GenotypeCounter.getAC (c : GenotypeCounter) : ℚ := c.sumAC

/-- `DataConsolidator::hasNoMissingGenotype(g, r)`: row `r` has no
negative entry in any of the `g.cols` marker columns. -/
def hasNoMissingGenotype (g : Mat) (r : ℕ) : Bool :=
  (List.range g.cols).all fun i => !decide (g.data r i < 0)

/-- `DataConsolidator::copyRow(src, srcRow, dest, destRow)`: grow `dest`
if needed, then copy the row. -/
def copyRow (src : Mat) (srcRow : ℕ) (dest : Mat) (destRow : ℕ) : Mat :=
  let m1 := if dest.cols < src.cols then dest.Dimension dest.rows src.cols else dest
  let m2 := if m1.rows ≤ destRow then m1.Dimension (destRow + 1) m1.cols else m1
  { m2 with data := fun r c => if r = destRow ∧ c < m2.cols then src.data srcRow c else m2.data r c }

/-- `DataConsolidator::copyColName(src, dest)`: re-dimension `dest` to
`src.cols` columns (keeping its rows) and copy the column labels. -/
def copyColName (src : Mat) (dest : Mat) : Mat :=
  let d := dest.Dimension dest.rows src.cols
  { d with labels := fun i => if i < src.cols then src.labels i else d.labels i }

/-- The `DataConsolidator` state: the strategy flag, the owned matrices,
the random source, the update flags, row labels, the sex vector and the
PAR classifier.  The kinship holders, weight and result fields play no
role in any claim and are omitted. -/
structure DataConsolidator where
  strategy : ℤ
  random : RandSrc
  genotype : Mat
  phenotype : Mat
  covariate : Mat
  originalGenotype : Mat
  phenotypeUpdated : Bool
  covariateUpdated : Bool
  originalRowLabel : List String
  rowLabel : List String
  sex : List ℤ
  parRegion : Option (String → ℤ → Bool)

namespace DataConsolidator

def UNINITIALIZED : ℤ := 0

def IMPUTE_MEAN : ℤ := 1

def IMPUTE_HWE : ℤ := 2

def DROP : ℤ := 3

def ANY_SEX : ℤ := -1

def MALE : ℤ := 1

def FEMALE : ℤ := 2

def ANY_PHENO : ℤ := -1

def CTRL : ℤ := 1

def CASE : ℤ := 2

end DataConsolidator

/-- The mutable state of the `DROP` compaction loop in
`DataConsolidator::consolidate`: the three matrices being compacted in
place, the row-label vector and the write cursor `idxToCopy`. -/
structure DropSt where
  g : Mat
  c : Mat
  p : Mat
  lab : List String
  idx : ℕ

/-- Default string used for out-of-range label reads. -/
def emptyLabel : String := ""

/-- One iteration of the `DROP` loop body of
`DataConsolidator::consolidate` at row `i`. -/
def dropStep (cov pheno : Mat) (origLab : List String) (s : DropSt) (i : ℕ) : DropSt :=
  if hasNoMissingGenotype s.g i then
    { g := copyRow s.g i s.g s.idx
      c := copyRow cov i s.c s.idx
      p := copyRow pheno i s.p s.idx
      lab := s.lab.set s.idx (origLab.getD i emptyLabel)
      idx := s.idx + 1 }
  else s

/-- `DataConsolidator::consolidate(pheno, cov, geno)`. -/
def consolidate (dc : DataConsolidator) (pheno cov geno : Mat) : DataConsolidator :=
  let dc1 := { dc with originalGenotype := geno, genotype := geno }
  let dc2 := { dc1 with
    phenotype := copyColName pheno dc1.phenotype
    covariate := copyColName cov dc1.covariate
    genotype := copyColName geno dc1.genotype
    originalGenotype := copyColName geno dc1.originalGenotype }
  if dc2.strategy = DataConsolidator.IMPUTE_MEAN then
    let dc3 := { dc2 with genotype := imputeGenotypeToMean dc2.genotype }
    let dc4 :=
      if !(Mat.eqb dc3.phenotype pheno) then
        { dc3 with phenotype := pheno, phenotypeUpdated := true }
      else { dc3 with phenotypeUpdated := false }
    if !(Mat.eqb dc4.covariate cov) then
      { dc4 with covariate := cov, covariateUpdated := true }
    else { dc4 with covariateUpdated := false }
  else if dc2.strategy = DataConsolidator.IMPUTE_HWE then
    let gr := imputeGenotypeByFrequency dc2.genotype dc2.random
    { dc2 with genotype := gr.1, random := gr.2, phenotype := pheno, covariate := cov }
  else if dc2.strategy = DataConsolidator.DROP then
    let s0 : DropSt :=
      { g := dc2.genotype, c := dc2.covariate, p := dc2.phenotype,
        lab := dc2.rowLabel, idx := 0 }
    let s := (List.range dc2.genotype.rows).foldl (dropStep cov pheno dc2.originalRowLabel) s0
    { dc2 with
      genotype := s.g.Dimension s.idx s.g.cols
      covariate := s.c.Dimension s.idx cov.cols
      phenotype := s.p.Dimension s.idx pheno.cols
      rowLabel := s.lab
      phenotypeUpdated := true
      covariateUpdated := true }
  else dc2

/-- `DataConsolidator::setPhenotypeName(name)`. -/
def DataConsolidator.setPhenotypeName (dc : DataConsolidator) (name : List String) :
    DataConsolidator :=
  { dc with originalRowLabel := name, rowLabel := name }

/-- `DataConsolidator::getRowLabel()`. -/
def DataConsolidator.getRowLabel (dc : DataConsolidator) : List String := dc.rowLabel

/-- `DataConsolidator::isPhenotypeUpdated()`. -/
def DataConsolidator.isPhenotypeUpdated (dc : DataConsolidator) : Bool := dc.phenotypeUpdated

/-- `DataConsolidator::isCovariateUpdated()`. -/
def DataConsolidator.isCovariateUpdated (dc : DataConsolidator) : Bool := dc.covariateUpdated

/-- `DataConsolidator::countRawGenotype(columnIndex, sex, phenotype,
counter)`: status code plus resulting counter.  The `sex` member is the
pointed-to sex vector; a null pointer (dereferenced only when the sex
filter is positive) is outside the model and not exercised by any
claim. -/
def countRawGenotype (dc : DataConsolidator) (columnIndex : ℤ) (sexF : ℤ) (phenoF : ℤ)
    (counter : GenotypeCounter) : ℤ × GenotypeCounter :=
  if columnIndex < 0 ∨ (dc.originalGenotype.cols : ℤ) ≤ columnIndex then (-1, counter)
  else if 0 < sexF ∧ ¬sexF = DataConsolidator.MALE ∧ ¬sexF = DataConsolidator.FEMALE then
    (-2, counter)
  else if 0 < sexF ∧ ¬(dc.sex.length : ℤ) = (dc.originalGenotype.rows : ℤ) then (-3, counter)
  else if 0 < phenoF ∧ ¬phenoF = DataConsolidator.CTRL ∧ ¬phenoF = DataConsolidator.CASE then
    (-2, counter)
  else
    ((0 : ℤ),
      (List.range dc.originalGenotype.rows).foldl
        (fun ct i =>
          if 0 < sexF ∧ ¬dc.sex.getD i 0 = sexF then ct
          else if 0 < phenoF ∧ ¬truncToInt (dc.phenotype.data i 0 + 1) = phenoF then ct
          else ct.add (dc.originalGenotype.data i columnIndex.toNat))
        counter)

/-- Modelled from the spec: C `atoi` applied to the position substring of
a `chrom:pos` label (`base/TypeConversion.h` is not under `src/`):
skip leading whitespace, read an optional sign and then leading digits;
0 when no digits are present. -/
def digitsVal : List Char → ℤ → ℤ
  | [], acc => acc
  | ch :: cs, acc =>
      if ch.isDigit then digitsVal cs (10 * acc + ((ch.toNat : ℤ) - 48)) else acc

def atoi (cs : List Char) : ℤ :=
  match cs.dropWhile Char.isWhitespace with
  | [] => 0
  | ch :: rest =>
      if ch = '-' then -(digitsVal rest 0)
      else if ch = '+' then digitsVal rest 0
      else digitsVal (ch :: rest) 0

/-- Modelled from the spec: `std::string::find(":")` — index of the
first colon, `none` for `npos`. -/
def findColon : List Char → Option ℕ
  | [] => none
  | ch :: cs => if ch = ':' then some 0 else (findColon cs).map (· + 1)

/-- `DataConsolidator::isHemiRegion(columnIndex)`: parse the
`chrom:pos` label of genotype column 0 and delegate to the PAR
classifier.  The `assert(this->parRegion)` failure (no classifier
configured) is a fatal contract violation; it is modelled as `false` and
never reached under the configured-classifier hypothesis. -/
def isHemiRegion (dc : DataConsolidator) (columnIndex : ℤ) : Bool :=
  match dc.parRegion with
  | none => false
  | some f =>
      let cs := (dc.genotype.labels 0).toList
      match findColon cs with
      | none => false
      | some k => f (String.mk (cs.take k)) (atoi (cs.drop (k + 1)))

/-- `DataConsolidator::codeGenotypeForDominantModel(geno)`.  The
once-per-process warning and the stderr print are I/O and dropped. -/
def codeGenotypeForDominantModel (dc : DataConsolidator) (geno : Mat) : Mat :=
  let m := dc.genotype.rows
  let out := geno.Dimension m 1
  if dc.strategy = DataConsolidator.IMPUTE_MEAN ∨ dc.strategy = DataConsolidator.IMPUTE_HWE then
    let fin := (List.range m).foldl
      (fun (st : Mat × ℚ × ℤ) i =>
        if dc.originalGenotype.data i 0 < 0 then st
        else if 1 / 2 < dc.originalGenotype.data i 0 then
          ({ st.1 with data := updD st.1.data i 0 1 }, st.2.1 + 1, st.2.2 + 1)
        else
          ({ st.1 with data := updD st.1.data i 0 0 }, st.2.1, st.2.2 + 1))
      (out, 0, 0)
    let avg : ℚ := if 0 < fin.2.2 then fin.2.1 / (fin.2.2 : ℚ) else 0
    (List.range m).foldl
      (fun o i =>
        if dc.originalGenotype.data i 0 < 0 then { o with data := updD o.data i 0 avg } else o)
      fin.1
  else if dc.strategy = DataConsolidator.DROP then
    (List.range m).foldl
      (fun o i =>
        if 1 / 2 < dc.genotype.data i 0 then { o with data := updD o.data 0 i 1 }
        else { o with data := updD o.data 0 i 0 })
      out
  else out

/-- Build a matrix from a list of rows (concrete test inputs). -/
def mkMat (l : List (List ℚ)) : Mat :=
  { rows := l.length
    cols := (l.headD []).length
    data := fun r c => (l.getD r []).getD c 0
    labels := fun _ => emptyLabel }

/-- Build a consolidator state from a strategy, matrices and labels
(concrete test inputs). -/
def mkDC (strat : ℤ) (g ph cv : Mat) (lab : List String) : DataConsolidator :=
  { strategy := strat
    random := { stream := fun _ => 0, pos := 0 }
    genotype := g
    phenotype := ph
    covariate := cv
    originalGenotype := g
    phenotypeUpdated := false
    covariateUpdated := false
    originalRowLabel := lab
    rowLabel := lab
    sex := []
    parRegion := none }

/-! Concrete inputs used by witnesses and counterexamples. -/

def labA : String := "a"

def labB : String := "b"

def labNoColon : String := "chrX"

def rSrc0 : RandSrc := { stream := fun _ => 0, pos := 0 }

def matEmpty : Mat := mkMat []

def gC1w : Mat := mkMat [[0]]

def phC1w : Mat := mkMat [[1]]

def cvC1w : Mat := mkMat [[2]]

def dcC1w : DataConsolidator := mkDC DataConsolidator.IMPUTE_MEAN gC1w phC1w cvC1w [labA]

def gC1x : Mat := mkMat [[0]]

def phC1x : Mat := mkMat [[1]]

def cvC1x : Mat := mkMat [[2]]

def dcC1x : DataConsolidator := mkDC DataConsolidator.UNINITIALIZED matEmpty matEmpty matEmpty []

def gC2 : Mat := mkMat [[0, 1], [-1, 2], [2, 0]]

def phC2 : Mat := mkMat [[5], [6], [7]]

def cvC2 : Mat := mkMat [[1], [2], [3]]

def dcC2 : DataConsolidator := mkDC DataConsolidator.DROP matEmpty matEmpty matEmpty []

def mC3 : Mat := mkMat [[1 / 2], [-1]]

def mC3w : Mat := mkMat [[1], [-1]]

def c4run : GenotypeCounter :=
  ([0, 0, 1, 2, -1] : List ℚ).foldl GenotypeCounter.add GenotypeCounter.reset

def gC5 : Mat := mkMat [[0], [1]]

def dcC5 : DataConsolidator := mkDC DataConsolidator.UNINITIALIZED gC5 gC5 gC5 []

def gC6 : Mat := mkMat [[-1]]

def phC6 : Mat := mkMat [[0]]

def cvC6 : Mat := mkMat [[1]]

def dcC6 : DataConsolidator := mkDC DataConsolidator.IMPUTE_HWE gC6 phC6 cvC6 []

def dcC6t : DataConsolidator := { dcC6 with phenotypeUpdated := true, covariateUpdated := true }

def gC7 : Mat := mkMat [[0], [2]]

def dcC7 : DataConsolidator := mkDC DataConsolidator.DROP gC7 gC7 gC7 []

def outC7 : Mat := { rows := 0, cols := 0, data := fun _ _ => 42, labels := fun _ => emptyLabel }

def gC8 : Mat := mkMat [[0], [-1]]

def phC8 : Mat := mkMat [[3], [4]]

def cvC8 : Mat := mkMat [[1], [1]]

def dcC8 : DataConsolidator := mkDC DataConsolidator.DROP gC8 phC8 cvC8 [labA, labB]

def mC9 : Mat := mkMat [[-1]]

def gC10 : Mat := { rows := 1, cols := 1, data := fun _ _ => 0, labels := fun _ => labNoColon }

def dcC10 : DataConsolidator :=
  { mkDC DataConsolidator.DROP gC10 gC10 gC10 [] with parRegion := some (fun _ _ => true) }

/-- The retained (fully observed) row indices among the first `i` rows
of `geno`, in their original order. -/
def keepRows (geno : Mat) (i : ℕ) : List ℕ :=
  (List.range i).filter fun j => hasNoMissingGenotype geno j

/-- Invariant of the DROP compaction loop of `consolidate` after the
first `i` rows have been processed: the write cursor counts the retained
rows so far; rows at or above the cursor are still the input rows; rows
below the cursor hold the retained input rows in order, in lock-step for
genotype, covariate, phenotype and (when the label list is long enough)
the row labels. -/
structure DropInv (geno cov pheno : Mat) (origLab lab0 : List String) (i : ℕ) (s : DropSt) :
    Prop where
  hidx : s.idx = (keepRows geno i).length
  hgrows : s.g.rows = geno.rows
  hgcols : s.g.cols = geno.cols
  hghigh : ∀ r k, s.idx ≤ r → s.g.data r k = geno.data r k
  hglow : ∀ j k, j < s.idx → k < geno.cols →
    s.g.data j k = geno.data ((keepRows geno i).getD j 0) k
  hccols : s.c.cols = cov.cols
  hclow : ∀ j k, j < s.idx → k < cov.cols →
    s.c.data j k = cov.data ((keepRows geno i).getD j 0) k
  hpcols : s.p.cols = pheno.cols
  hplow : ∀ j k, j < s.idx → k < pheno.cols →
    s.p.data j k = pheno.data ((keepRows geno i).getD j 0) k
  hlablen : s.lab.length = lab0.length
  hlablow : geno.rows ≤ lab0.length → ∀ j, j < s.idx →
    s.lab.getD j emptyLabel = origLab.getD ((keepRows geno i).getD j 0) emptyLabel

/-- The state of the DROP compaction loop of `consolidate` after all
rows are processed, starting from the freshly column-labelled stored
matrices. -/
def dropRun (dc : DataConsolidator) (pheno cov geno : Mat) : DropSt :=
  (List.range geno.rows).foldl (dropStep cov pheno dc.originalRowLabel)
    { g := copyColName geno geno, c := copyColName cov dc.covariate,
      p := copyColName pheno dc.phenotype, lab := dc.rowLabel, idx := 0 }

/-! Generic helper lemmas. -/

theorem foldl_inv {α β : Type _} (P : α → Prop) (f : α → β → α) :
    ∀ (l : List β) (a : α), P a → (∀ x b, b ∈ l → P x → P (f x b)) → P (l.foldl f a)
  | [], _, h0, _ => h0
  | b :: t, a, h0, hstep =>
      foldl_inv P f t (f a b) (hstep a b (List.mem_cons_self b t) h0)
        (fun x c hc hx => hstep x c (List.mem_cons_of_mem b hc) hx)

/-! Dimension-preservation lemmas for the imputation passes. -/

theorem meanImputeCol_rows (m : Mat) (i : ℕ) : (meanImputeCol m i).rows = m.rows := rfl

theorem meanImputeCol_cols (m : Mat) (i : ℕ) : (meanImputeCol m i).cols = m.cols := rfl

theorem imputeGenotypeToMean_rows (m : Mat) : (imputeGenotypeToMean m).rows = m.rows := by
  unfold imputeGenotypeToMean
  exact (foldl_inv (fun x => x.rows = m.rows ∧ x.cols = m.cols) meanImputeCol _ m ⟨rfl, rfl⟩
    (fun x b _ hx => ⟨(meanImputeCol_rows x b).trans hx.1, (meanImputeCol_cols x b).trans hx.2⟩)).1

theorem imputeGenotypeToMean_cols (m : Mat) : (imputeGenotypeToMean m).cols = m.cols := by
  unfold imputeGenotypeToMean
  exact (foldl_inv (fun x => x.rows = m.rows ∧ x.cols = m.cols) meanImputeCol _ m ⟨rfl, rfl⟩
    (fun x b _ hx => ⟨(meanImputeCol_rows x b).trans hx.1, (meanImputeCol_cols x b).trans hx.2⟩)).2

theorem hweImputeCell_dims (i : ℕ) (pRef pHet : ℚ) (mr : Mat × RandSrc) (j : ℕ) :
    (hweImputeCell i pRef pHet mr j).1.rows = mr.1.rows ∧
      (hweImputeCell i pRef pHet mr j).1.cols = mr.1.cols := by
  unfold hweImputeCell
  split
  · exact ⟨rfl, rfl⟩
  · exact ⟨rfl, rfl⟩

theorem hweImputeCol_dims (mr : Mat × RandSrc) (i : ℕ) :
    (hweImputeCol mr i).1.rows = mr.1.rows ∧ (hweImputeCol mr i).1.cols = mr.1.cols := by
  unfold hweImputeCol
  exact foldl_inv (fun x => x.1.rows = mr.1.rows ∧ x.1.cols = mr.1.cols) _ _ mr ⟨rfl, rfl⟩
    (fun x b _ hx =>
      ⟨(hweImputeCell_dims _ _ _ x b).1.trans hx.1, (hweImputeCell_dims _ _ _ x b).2.trans hx.2⟩)

theorem imputeGenotypeByFrequency_rows (m : Mat) (r : RandSrc) :
    (imputeGenotypeByFrequency m r).1.rows = m.rows := by
  unfold imputeGenotypeByFrequency
  exact (foldl_inv (fun x => x.1.rows = m.rows ∧ x.1.cols = m.cols) _ _ (m, r) ⟨rfl, rfl⟩
    (fun x b _ hx =>
      ⟨(hweImputeCol_dims x b).1.trans hx.1, (hweImputeCol_dims x b).2.trans hx.2⟩)).1

theorem Mat.eqb_rows {a b : Mat} (h : a.eqb b = true) : a.rows = b.rows := by
  unfold Mat.eqb at h
  simp only [Bool.and_eq_true, decide_eq_true_eq] at h
  exact h.1.1

theorem copyColName_rows (src dest : Mat) : (copyColName src dest).rows = dest.rows := rfl

theorem copyColName_cols (src dest : Mat) : (copyColName src dest).cols = src.cols := rfl

theorem copyColName_data (src dest : Mat) : (copyColName src dest).data = dest.data := rfl

/-! Per-strategy characterizations of `consolidate`. -/

theorem consolidate_mean_eq (dc : DataConsolidator) (pheno cov geno : Mat)
    (hs : dc.strategy = DataConsolidator.IMPUTE_MEAN) :
    consolidate dc pheno cov geno =
      { dc with
        originalGenotype := copyColName geno geno
        genotype := imputeGenotypeToMean (copyColName geno geno)
        phenotype :=
          if !Mat.eqb (copyColName pheno dc.phenotype) pheno then pheno
          else copyColName pheno dc.phenotype
        phenotypeUpdated := !Mat.eqb (copyColName pheno dc.phenotype) pheno
        covariate :=
          if !Mat.eqb (copyColName cov dc.covariate) cov then cov
          else copyColName cov dc.covariate
        covariateUpdated := !Mat.eqb (copyColName cov dc.covariate) cov } := by
  unfold consolidate
  simp only [hs, DataConsolidator.IMPUTE_MEAN, DataConsolidator.IMPUTE_HWE,
    DataConsolidator.DROP]
  norm_num
  by_cases h1 : Mat.eqb (copyColName pheno dc.phenotype) pheno <;>
    by_cases h2 : Mat.eqb (copyColName cov dc.covariate) cov <;>
    simp [h1, h2]

theorem consolidate_hwe_eq (dc : DataConsolidator) (pheno cov geno : Mat)
    (hs : dc.strategy = DataConsolidator.IMPUTE_HWE) :
    consolidate dc pheno cov geno =
      { dc with
        originalGenotype := copyColName geno geno
        genotype := (imputeGenotypeByFrequency (copyColName geno geno) dc.random).1
        random := (imputeGenotypeByFrequency (copyColName geno geno) dc.random).2
        phenotype := pheno
        covariate := cov } := by
  unfold consolidate
  simp only [hs, DataConsolidator.IMPUTE_MEAN, DataConsolidator.IMPUTE_HWE,
    DataConsolidator.DROP]
  norm_num

theorem consolidate_drop_eq (dc : DataConsolidator) (pheno cov geno : Mat)
    (hs : dc.strategy = DataConsolidator.DROP) :
    consolidate dc pheno cov geno =
      { dc with
        originalGenotype := copyColName geno geno
        genotype := (dropRun dc pheno cov geno).g.Dimension (dropRun dc pheno cov geno).idx
          (dropRun dc pheno cov geno).g.cols
        covariate := (dropRun dc pheno cov geno).c.Dimension (dropRun dc pheno cov geno).idx
          cov.cols
        phenotype := (dropRun dc pheno cov geno).p.Dimension (dropRun dc pheno cov geno).idx
          pheno.cols
        rowLabel := (dropRun dc pheno cov geno).lab
        phenotypeUpdated := true
        covariateUpdated := true } := by
  unfold consolidate dropRun
  simp only [hs, DataConsolidator.IMPUTE_MEAN, DataConsolidator.IMPUTE_HWE,
    DataConsolidator.DROP]
  norm_num [copyColName_rows]

theorem consolidate_other_eq (dc : DataConsolidator) (pheno cov geno : Mat)
    (hs : dc.strategy = DataConsolidator.UNINITIALIZED) :
    consolidate dc pheno cov geno =
      { dc with
        originalGenotype := copyColName geno geno
        genotype := copyColName geno geno
        phenotype := copyColName pheno dc.phenotype
        covariate := copyColName cov dc.covariate } := by
  unfold consolidate
  simp only [hs, DataConsolidator.UNINITIALIZED, DataConsolidator.IMPUTE_MEAN,
    DataConsolidator.IMPUTE_HWE, DataConsolidator.DROP]
  norm_num

/-! Claim C4 — `GenotypeCounter` on the sequence `[0, 0, 1, 2, -1]`. -/

/-- C4: evaluating the embedded `GenotypeCounter::add` on the claim's
input sequence `[0, 0, 1, 2, -1]`.  Because the `g < 0` check in `add`
is a separate `if` and not an `else if`, the missing value `-1` falls
into the homRef bucket as well and is added to `sumAC`: the code yields
`getNumHomRef = 3` (claim says 2), `getAC = 2` (claim says 3) and
`getAF = 1/5` (claim says 3/10), while het, homAlt, missing and the call
rate agree with the claim. -/
theorem genotypeCounter_sequence_eval :
    c4run.getNumHomRef = 3 ∧ c4run.getNumHet = 1 ∧ c4run.getNumHomAlt = 1 ∧
      c4run.getNumMissing = 1 ∧ c4run.getCallRate = 4 / 5 ∧ c4run.getAC = 2 ∧
      c4run.getAF = 1 / 5 := by
  norm_num [c4run, GenotypeCounter.add, GenotypeCounter.reset, GenotypeCounter.getNumHomRef,
    GenotypeCounter.getNumHet, GenotypeCounter.getNumHomAlt, GenotypeCounter.getNumMissing,
    GenotypeCounter.getCallRate, GenotypeCounter.getAC, GenotypeCounter.getAF,
    List.foldl_cons, List.foldl_nil]

/-! Claim C10 — `isHemiRegion` ignores its column index. -/

theorem findColon_eq_none (cs : List Char) (h : ':' ∉ cs) : findColon cs = none := by
  induction cs with
  | nil => rfl
  | cons a t ih =>
      have ha : ¬(a = ':') := fun hc => h (List.mem_cons.mpr (Or.inl hc.symm))
      simp only [findColon, if_neg ha, ih (fun ht => h (List.mem_cons_of_mem a ht))]
      rfl

/-- C10: `isHemiRegion` ignores its `columnIndex` argument: for any two
consolidator states with the same (configured) PAR classifier and the
same label on genotype column 0, `isHemiRegion` agrees for any two
column indices; moreover when that label contains no colon the result is
`false`. -/
theorem isHemiRegion_ignores_columnIndex (dc dc2 : DataConsolidator)
    (f : String → ℤ → Bool) (i j : ℤ)
    (hf : dc.parRegion = some f) (hp : dc2.parRegion = dc.parRegion)
    (hl : dc2.genotype.labels 0 = dc.genotype.labels 0) :
    isHemiRegion dc i = isHemiRegion dc2 j ∧
      (':' ∉ (dc.genotype.labels 0).toList → isHemiRegion dc i = false) := by
  constructor
  · unfold isHemiRegion
    rw [hp, hl]
  · intro hnc
    unfold isHemiRegion
    rw [hf]
    simp only [findColon_eq_none _ hnc]

/-- Witness for C10 at a concrete state whose column-0 label `chrX` has
no colon. -/
theorem isHemiRegion_ignores_columnIndex_witness :
    isHemiRegion dcC10 0 = isHemiRegion dcC10 3 ∧ isHemiRegion dcC10 0 = false := by
  have h := isHemiRegion_ignores_columnIndex dcC10 dcC10 (fun _ _ => true) 0 3 rfl rfl rfl
  exact ⟨h.1, h.2 (by decide)⟩

/-! Claim C6 — the IMPUTE_HWE branch and the updated flags. -/

/-- C6 amended: the IMPUTE_HWE branch of `consolidate` does not touch
`phenotypeUpdated`/`covariateUpdated`: after `consolidate` under
IMPUTE_HWE, `isPhenotypeUpdated`/`isCovariateUpdated` return exactly
their prior values (they are not unconditionally set true). -/
theorem consolidate_hwe_flags (dc : DataConsolidator) (pheno cov geno : Mat)
    (hs : dc.strategy = DataConsolidator.IMPUTE_HWE) :
    (consolidate dc pheno cov geno).isPhenotypeUpdated = dc.phenotypeUpdated ∧
      (consolidate dc pheno cov geno).isCovariateUpdated = dc.covariateUpdated := by
  rw [consolidate_hwe_eq dc pheno cov geno hs]
  exact ⟨rfl, rfl⟩

/-- Witness for C6's amended statement: a prior state whose flags are
true keeps them true. -/
theorem consolidate_hwe_flags_witness :
    (consolidate dcC6t phC6 cvC6 gC6).isPhenotypeUpdated = true ∧
      (consolidate dcC6t phC6 cvC6 gC6).isCovariateUpdated = true := by
  have h := consolidate_hwe_flags dcC6t phC6 cvC6 gC6 rfl
  exact ⟨h.1, h.2⟩

/-- Counterexample to C6 as stated: a prior state with both flags false,
consolidated under IMPUTE_HWE, still reports both flags false, not
true. -/
theorem consolidate_hwe_flags_cex :
    (consolidate dcC6 phC6 cvC6 gC6).isPhenotypeUpdated = false ∧
      (consolidate dcC6 phC6 cvC6 gC6).isCovariateUpdated = false := by
  decide

/-! Claim C5 — `countRawGenotype` status codes. -/

/-- C5 amended: `countRawGenotype` returns -1 for a negative or
out-of-range column index, and returns -2 when the sex filter is
positive yet neither MALE (1) nor FEMALE (2); a sex filter of 0 is NOT
rejected with -2 — it is treated exactly like ANY_SEX. -/
theorem countRawGenotype_status_codes (dc : DataConsolidator) (col sexF phenoF : ℤ)
    (ct : GenotypeCounter) :
    ((col < 0 ∨ (dc.originalGenotype.cols : ℤ) ≤ col) →
        (countRawGenotype dc col sexF phenoF ct).1 = -1) ∧
      (¬(col < 0 ∨ (dc.originalGenotype.cols : ℤ) ≤ col) →
        0 < sexF → ¬sexF = DataConsolidator.MALE → ¬sexF = DataConsolidator.FEMALE →
        (countRawGenotype dc col sexF phenoF ct).1 = -2) ∧
      countRawGenotype dc col 0 phenoF ct =
        countRawGenotype dc col DataConsolidator.ANY_SEX phenoF ct := by
  refine ⟨fun h => ?_, fun h h1 h2 h3 => ?_, ?_⟩
  · simp [countRawGenotype, h]
  · simp [countRawGenotype, h, h1, h2, h3]
  · unfold countRawGenotype
    norm_num [DataConsolidator.ANY_SEX]

/-- Witness for C5's amended statement at a concrete state: column -3 is
out of range (-1); sex filter 3 is invalid (-2); sex filter 0 behaves
like ANY_SEX. -/
theorem countRawGenotype_status_codes_witness :
    (countRawGenotype dcC5 (-3) (-1) (-1) GenotypeCounter.reset).1 = -1 ∧
      (countRawGenotype dcC5 0 3 (-1) GenotypeCounter.reset).1 = -2 ∧
      countRawGenotype dcC5 0 0 (-1) GenotypeCounter.reset =
        countRawGenotype dcC5 0 DataConsolidator.ANY_SEX (-1) GenotypeCounter.reset := by
  refine ⟨(countRawGenotype_status_codes dcC5 (-3) (-1) (-1) GenotypeCounter.reset).1 ?_,
    (countRawGenotype_status_codes dcC5 0 3 (-1) GenotypeCounter.reset).2.1 ?_ ?_ ?_ ?_,
    (countRawGenotype_status_codes dcC5 0 0 (-1) GenotypeCounter.reset).2.2⟩ <;> decide

/-- Counterexample to C5 as stated: with a valid column and sex filter 0
the call succeeds with status 0 — it does not return -2. -/
theorem countRawGenotype_sexZero_cex :
    (countRawGenotype dcC5 0 0 (-1) GenotypeCounter.reset).1 = 0 ∧
      ¬(countRawGenotype dcC5 0 0 (-1) GenotypeCounter.reset).1 = -2 := by
  decide

/-! Claim C7 — dominant-model coding under DROP. -/

/-- C7: evaluating the embedded `codeGenotypeForDominantModel` under the
DROP strategy on a 2-individual single-marker state whose consolidated
genotypes are 0 and 2: the output is dimensioned 2 by 1, yet the DROP
branch writes the coded values to cell `[0][i]` instead of `[i][0]`:
cell `[1][0]` keeps the prior content of the output argument (42 here,
an out-of-window leftover — in C++ this is an out-of-bounds write for
i = 1) instead of the coded value 1 the claim requires, and the coded
value 1 lands at `[0][1]`, outside the 2-by-1 window. -/
theorem codeDominant_drop_eval :
    (codeGenotypeForDominantModel dcC7 outC7).rows = 2 ∧
      (codeGenotypeForDominantModel dcC7 outC7).cols = 1 ∧
      (codeGenotypeForDominantModel dcC7 outC7).data 1 0 = 42 ∧
      (codeGenotypeForDominantModel dcC7 outC7).data 0 1 = 1 := by
  norm_num [codeGenotypeForDominantModel, dcC7, gC7, outC7, mkDC, mkMat, updD, Mat.Dimension,
    DataConsolidator.DROP, DataConsolidator.IMPUTE_MEAN, DataConsolidator.IMPUTE_HWE,
    List.foldl_cons, List.foldl_nil, List.range_succ, List.foldl_append, List.range_zero]

/-! Claim C1 — row-count alignment after `consolidate`. -/

/-- C1 amended: whenever the three inputs share a row count and the
strategy is one of IMPUTE_MEAN, IMPUTE_HWE or DROP, the stored
genotype/phenotype/covariate row counts are equal after `consolidate`.
(Under UNINITIALIZED the error branch leaves the stored
phenotype/covariate row counts at their prior values, so the alignment
can fail — see the counterexample.) -/
theorem consolidate_rows_aligned (dc : DataConsolidator) (pheno cov geno : Mat)
    (hp : pheno.rows = geno.rows) (hc : cov.rows = geno.rows)
    (hs : dc.strategy = DataConsolidator.IMPUTE_MEAN ∨
      dc.strategy = DataConsolidator.IMPUTE_HWE ∨ dc.strategy = DataConsolidator.DROP) :
    (consolidate dc pheno cov geno).genotype.rows =
        (consolidate dc pheno cov geno).phenotype.rows ∧
      (consolidate dc pheno cov geno).genotype.rows =
        (consolidate dc pheno cov geno).covariate.rows := by
  rcases hs with hs | hs | hs
  · rw [consolidate_mean_eq dc pheno cov geno hs]
    constructor
    · show (imputeGenotypeToMean (copyColName geno geno)).rows =
        (if !Mat.eqb (copyColName pheno dc.phenotype) pheno then pheno
          else copyColName pheno dc.phenotype).rows
      rw [imputeGenotypeToMean_rows, copyColName_rows]
      by_cases h1 : Mat.eqb (copyColName pheno dc.phenotype) pheno
      · rw [if_neg (by simp [h1]), copyColName_rows]
        have := Mat.eqb_rows h1
        rw [copyColName_rows] at this
        rw [this, hp]
      · rw [if_pos (by simp [h1]), hp]
    · show (imputeGenotypeToMean (copyColName geno geno)).rows =
        (if !Mat.eqb (copyColName cov dc.covariate) cov then cov
          else copyColName cov dc.covariate).rows
      rw [imputeGenotypeToMean_rows, copyColName_rows]
      by_cases h2 : Mat.eqb (copyColName cov dc.covariate) cov
      · rw [if_neg (by simp [h2]), copyColName_rows]
        have := Mat.eqb_rows h2
        rw [copyColName_rows] at this
        rw [this, hc]
      · rw [if_pos (by simp [h2]), hc]
  · rw [consolidate_hwe_eq dc pheno cov geno hs]
    show (imputeGenotypeByFrequency (copyColName geno geno) dc.random).1.rows = pheno.rows ∧
      (imputeGenotypeByFrequency (copyColName geno geno) dc.random).1.rows = cov.rows
    rw [imputeGenotypeByFrequency_rows, copyColName_rows, hp, hc]
    exact ⟨rfl, rfl⟩
  · rw [consolidate_drop_eq dc pheno cov geno hs]
    exact ⟨rfl, rfl⟩

/-- Witness for C1's amended statement at a concrete IMPUTE_MEAN run. -/
theorem consolidate_rows_aligned_witness :
    (consolidate dcC1w phC1w cvC1w gC1w).genotype.rows =
        (consolidate dcC1w phC1w cvC1w gC1w).phenotype.rows ∧
      (consolidate dcC1w phC1w cvC1w gC1w).genotype.rows =
        (consolidate dcC1w phC1w cvC1w gC1w).covariate.rows :=
  consolidate_rows_aligned dcC1w phC1w cvC1w gC1w rfl rfl (Or.inl rfl)

/-- Counterexample to C1 as stated: with the strategy field
UNINITIALIZED and 1-row inputs sharing their row count, the stored
genotype has 1 row after `consolidate` while the stored phenotype keeps
its prior 0 rows: the alignment fails for the UNINITIALIZED strategy
value included in the claim. -/
theorem consolidate_rows_aligned_cex :
    (phC1x.rows = gC1x.rows ∧ cvC1x.rows = gC1x.rows ∧
        dcC1x.strategy = DataConsolidator.UNINITIALIZED) ∧
      ¬(consolidate dcC1x phC1x cvC1x gC1x).genotype.rows =
        (consolidate dcC1x phC1x cvC1x gC1x).phenotype.rows := by
  decide

/-! Claim C3 — mean imputation characterization. -/

theorem truncToInt_intCast (z : ℤ) : truncToInt (z : ℚ) = z := by
  unfold truncToInt
  split
  · exact Int.floor_intCast z
  · exact Int.ceil_intCast z

theorem meanImputeCol_data_eq (m : Mat) (i : ℕ) :
    (meanImputeCol m i).data = fun r c =>
      if c = i ∧ r < m.rows ∧ m.data r c < 0 then
        2 * (if (colAcAn m i).2 = 0 then 0 else ((colAcAn m i).1 : ℚ) / ((colAcAn m i).2 : ℚ))
      else m.data r c := rfl

theorem meanImputeCol_data_other (m : Mat) (i r c : ℕ) (h : ¬c = i) :
    (meanImputeCol m i).data r c = m.data r c := by
  rw [congrFun (congrFun (meanImputeCol_data_eq m i) r) c]
  exact if_neg (fun hcon => h hcon.1)

theorem meanImputeCol_data_col (m : Mat) (i r : ℕ) (hr : r < m.rows) :
    (meanImputeCol m i).data r i =
      if m.data r i < 0 then
        (if (colAcAn m i).2 = 0 then 0
         else 2 * (((colAcAn m i).1 : ℚ) / ((colAcAn m i).2 : ℚ)))
      else m.data r i := by
  rw [congrFun (congrFun (meanImputeCol_data_eq m i) r) i]
  by_cases hneg : m.data r i < 0
  · rw [if_pos ⟨rfl, hr, hneg⟩, if_pos hneg]
    by_cases han : (colAcAn m i).2 = 0
    · rw [if_pos han, if_pos han, mul_zero]
    · rw [if_neg han, if_neg han]
  · rw [if_neg (fun hcon => hneg hcon.2.2), if_neg hneg]

theorem colAcAn_congr (a b : Mat) (i : ℕ) (hrows : a.rows = b.rows)
    (hdat : ∀ j, a.data j i = b.data j i) : colAcAn a i = colAcAn b i := by
  unfold colAcAn
  rw [hrows]
  apply List.foldl_ext
  intro acc j _
  unfold acAnStep
  rw [hdat j]

theorem imputeGenotypeToMean_data (m : Mat) (i r : ℕ) (hi : i < m.cols) (hr : r < m.rows) :
    (imputeGenotypeToMean m).data r i =
      if m.data r i < 0 then
        (if (colAcAn m i).2 = 0 then 0
         else 2 * (((colAcAn m i).1 : ℚ) / ((colAcAn m i).2 : ℚ)))
      else m.data r i := by
  obtain ⟨k, hk⟩ : ∃ k, m.cols = i + 1 + k := ⟨m.cols - (i + 1), by omega⟩
  unfold imputeGenotypeToMean
  rw [hk, List.range_add, List.foldl_append, List.range_succ, List.foldl_append]
  simp only [List.foldl_cons, List.foldl_nil]
  have h1 : ((List.range i).foldl meanImputeCol m).rows = m.rows ∧
      ((List.range i).foldl meanImputeCol m).cols = m.cols ∧
      ∀ rr cc, i ≤ cc → ((List.range i).foldl meanImputeCol m).data rr cc = m.data rr cc :=
    foldl_inv (fun x => x.rows = m.rows ∧ x.cols = m.cols ∧
        ∀ rr cc, i ≤ cc → x.data rr cc = m.data rr cc) meanImputeCol _ m
      ⟨rfl, rfl, fun _ _ _ => rfl⟩
      (fun x b hb hx =>
        ⟨(meanImputeCol_rows x b).trans hx.1, (meanImputeCol_cols x b).trans hx.2.1,
          fun rr cc hcc => by
            have hbi : b < i := List.mem_range.mp hb
            rw [meanImputeCol_data_other x b rr cc (by omega), hx.2.2 rr cc hcc]⟩)
  set m1 := (List.range i).foldl meanImputeCol m
  have hco : colAcAn m1 i = colAcAn m i :=
    colAcAn_congr m1 m i h1.1 (fun j => h1.2.2 j i (le_refl i))
  have hstep : (meanImputeCol m1 i).data r i =
      if m.data r i < 0 then
        (if (colAcAn m i).2 = 0 then 0
         else 2 * (((colAcAn m i).1 : ℚ) / ((colAcAn m i).2 : ℚ)))
      else m.data r i := by
    rw [meanImputeCol_data_col m1 i r (by rw [h1.1]; exact hr), hco,
      h1.2.2 r i (le_refl i)]
  exact foldl_inv (fun x => x.data r i =
      if m.data r i < 0 then
        (if (colAcAn m i).2 = 0 then 0
         else 2 * (((colAcAn m i).1 : ℚ) / ((colAcAn m i).2 : ℚ)))
      else m.data r i) meanImputeCol _ (meanImputeCol m1 i) hstep
    (fun x b hb hx => by
      obtain ⟨y, hy1, hy2⟩ := List.mem_map.mp hb
      have hyb : i + 1 + y = b := hy2
      rw [meanImputeCol_data_other x b r i (by omega), hx])

theorem colAcAn_an_aux (m : Mat) (i : ℕ) (l : List ℕ) (acan : ℤ × ℤ) :
    (l.foldl (acAnStep m i) acan).2 =
      acan.2 + 2 * ((l.filter fun j => decide (0 ≤ m.data j i)).length : ℤ) := by
  induction l generalizing acan with
  | nil => simp
  | cons a t ih =>
      by_cases h : 0 ≤ m.data a i
      · rw [List.foldl_cons, List.filter_cons_of_pos (by simpa using h)]
        have hstep : acAnStep m i acan a =
            (truncToInt ((acan.1 : ℚ) + m.data a i), acan.2 + 2) := by
          unfold acAnStep
          rw [if_pos h]
        rw [hstep, ih, List.length_cons]
        push_cast
        ring
      · rw [List.foldl_cons, List.filter_cons_of_neg (by simpa using h)]
        have hstep : acAnStep m i acan a = acan := by
          unfold acAnStep
          rw [if_neg h]
        rw [hstep, ih]

theorem colAcAn_an (m : Mat) (i : ℕ) :
    (colAcAn m i).2 =
      2 * (((List.range m.rows).filter fun j => decide (0 ≤ m.data j i)).length : ℤ) := by
  unfold colAcAn
  rw [colAcAn_an_aux]
  ring

theorem colAcAn_ac_int_aux (m : Mat) (i : ℕ) (l : List ℕ)
    (hint : ∀ j ∈ l, 0 ≤ m.data j i → ∃ z : ℤ, m.data j i = (z : ℚ)) :
    ∀ acan : ℤ × ℤ,
      ((l.foldl (acAnStep m i) acan).1 : ℚ) =
        (acan.1 : ℚ) + ((l.filter fun j => decide (0 ≤ m.data j i)).map
          fun j => m.data j i).sum := by
  induction l with
  | nil => intro acan; simp
  | cons a t ih =>
      intro acan
      by_cases h : 0 ≤ m.data a i
      · obtain ⟨z, hz⟩ := hint a (List.mem_cons_self a t) h
        rw [List.foldl_cons, List.filter_cons_of_pos (by simpa using h)]
        have htr : truncToInt ((acan.1 : ℚ) + m.data a i) = acan.1 + z := by
          rw [hz]
          rw [show ((acan.1 : ℚ) + (z : ℚ)) = ((acan.1 + z : ℤ) : ℚ) by push_cast; ring]
          exact truncToInt_intCast (acan.1 + z)
        have hstep : acAnStep m i acan a = (acan.1 + z, acan.2 + 2) := by
          unfold acAnStep
          rw [if_pos h, htr]
        rw [hstep, ih (fun j hj hnn => hint j (List.mem_cons_of_mem a hj) hnn)]
        rw [List.map_cons, List.sum_cons, hz]
        push_cast
        ring
      · rw [List.foldl_cons, List.filter_cons_of_neg (by simpa using h)]
        have hstep : acAnStep m i acan a = acan := by
          unfold acAnStep
          rw [if_neg h]
        rw [hstep, ih (fun j hj hnn => hint j (List.mem_cons_of_mem a hj) hnn)]

theorem colAcAn_ac_int (m : Mat) (i : ℕ)
    (hint : ∀ j2, j2 < m.rows → 0 ≤ m.data j2 i → ∃ z : ℤ, m.data j2 i = (z : ℚ)) :
    ((colAcAn m i).1 : ℚ) =
      (((List.range m.rows).filter fun j2 => decide (0 ≤ m.data j2 i)).map
        fun j2 => m.data j2 i).sum := by
  unfold colAcAn
  rw [colAcAn_ac_int_aux m i _ (fun j hj hnn => hint j (List.mem_range.mp hj) hnn)]
  simp

/-- C3 amended: after `imputeGenotypeToMean`, an originally non-missing
cell is unchanged; an originally missing cell in a column with no
non-missing entry becomes 0; an originally missing cell in any other
column becomes `2 * (ac / an)` where `an` is twice the number of
non-missing cells of the column and `ac` is the C-`int` accumulation of
the column's non-missing values, truncating toward zero at each
addition — which equals the exact observed alt-allele count (the sum of
the non-missing values) whenever those values are integers (hard calls),
giving exactly the claim's `2 × (count / allele-number)` in that case;
for fractional dosage values the truncation makes the claim's exact
formula fail (see the counterexample). -/
theorem imputeGenotypeToMean_char (m : Mat) (i j : ℕ) (hi : i < m.cols) (hj : j < m.rows) :
    (0 ≤ m.data j i → (imputeGenotypeToMean m).data j i = m.data j i) ∧
      (m.data j i < 0 ∧ (colAcAn m i).2 = 0 → (imputeGenotypeToMean m).data j i = 0) ∧
      (m.data j i < 0 ∧ ¬(colAcAn m i).2 = 0 →
        (imputeGenotypeToMean m).data j i =
          2 * (((colAcAn m i).1 : ℚ) / ((colAcAn m i).2 : ℚ))) ∧
      ((colAcAn m i).2 =
        2 * (((List.range m.rows).filter fun j2 => decide (0 ≤ m.data j2 i)).length : ℤ)) ∧
      ((∀ j2, j2 < m.rows → 0 ≤ m.data j2 i → ∃ z : ℤ, m.data j2 i = (z : ℚ)) →
        ((colAcAn m i).1 : ℚ) =
          (((List.range m.rows).filter fun j2 => decide (0 ≤ m.data j2 i)).map
            fun j2 => m.data j2 i).sum) := by
  refine ⟨fun hnn => ?_, fun hzero => ?_, fun hpos => ?_, colAcAn_an m i, colAcAn_ac_int m i⟩
  · rw [imputeGenotypeToMean_data m i j hi hj, if_neg (not_lt.mpr hnn)]
  · rw [imputeGenotypeToMean_data m i j hi hj, if_pos hzero.1, if_pos hzero.2]
  · rw [imputeGenotypeToMean_data m i j hi hj, if_pos hpos.1, if_neg hpos.2]

/-- Witness for C3's amended statement at the hard-call column `[1, -1]`:
the missing cell becomes `2 * (1 / 2) = 1`. -/
theorem imputeGenotypeToMean_char_witness :
    mC3w.data 1 0 < 0 ∧ (imputeGenotypeToMean mC3w).data 1 0 = 1 := by
  have hac : colAcAn mC3w 0 = (1, 2) := by
    norm_num [colAcAn, acAnStep, truncToInt, mC3w, mkMat, List.range_succ, List.range_zero,
      List.getD_cons_zero, List.getD_cons_succ]
  have hminus : mC3w.data 1 0 < 0 := by
    norm_num [mC3w, mkMat, List.getD_cons_zero, List.getD_cons_succ]
  have h := imputeGenotypeToMean_char mC3w 0 1
    (by norm_num [mC3w, mkMat]) (by norm_num [mC3w, mkMat])
  refine ⟨hminus, ?_⟩
  rw [h.2.2.1 ⟨hminus, by rw [hac]; norm_num⟩, hac]
  norm_num

/-- Counterexample to C3 as stated: for the dosage column `[1/2, -1]`
the code's C-`int` accumulation truncates `0 + 1/2` to 0 and imputes the
missing cell to 0, while the claim's formula `2 × (observed alt-allele
count / observed allele number)` computed from the non-missing cells
gives `2 * ((1/2) / 2) = 1/2`. -/
theorem imputeGenotypeToMean_cex :
    (imputeGenotypeToMean mC3).data 1 0 = 0 ∧
      2 * ((((List.range mC3.rows).filter fun j => decide (0 ≤ mC3.data j 0)).map
            fun j => mC3.data j 0).sum /
          (2 * ((((List.range mC3.rows).filter fun j => decide (0 ≤ mC3.data j 0)).length : ℚ)))) =
        1 / 2 ∧
      ¬(imputeGenotypeToMean mC3).data 1 0 = 1 / 2 := by
  have hac : colAcAn mC3 0 = (0, 2) := by
    norm_num [colAcAn, acAnStep, truncToInt, mC3, mkMat, List.range_succ, List.range_zero,
      List.getD_cons_zero, List.getD_cons_succ]
  have hv : (imputeGenotypeToMean mC3).data 1 0 = 0 := by
    rw [imputeGenotypeToMean_data mC3 0 1 (by norm_num [mC3, mkMat])
      (by norm_num [mC3, mkMat])]
    rw [hac]
    norm_num [mC3, mkMat, List.getD_cons_zero, List.getD_cons_succ]
  refine ⟨hv, ?_, by rw [hv]; norm_num⟩
  norm_num [mC3, mkMat, List.range_succ, List.range_zero, List.getD_cons_zero,
    List.getD_cons_succ]

/-! Claims C2 and C8 — the DROP compaction loop. -/

theorem list_getD_append_left {α : Type _} :
    ∀ (l1 l2 : List α) (j : ℕ) (d : α), j < l1.length → (l1 ++ l2).getD j d = l1.getD j d
  | [], _, j, _, h => absurd h (by simp)
  | _ :: _, _, 0, _, _ => by simp [List.getD_cons_zero]
  | a :: t, l2, j + 1, d, h => by
      simp only [List.cons_append, List.getD_cons_succ]
      exact list_getD_append_left t l2 j d (by simpa using h)

theorem list_getD_append_self {α : Type _} :
    ∀ (l1 : List α) (a d : α), (l1 ++ [a]).getD l1.length d = a
  | [], a, d => by simp [List.getD_cons_zero]
  | b :: t, a, d => by
      simp only [List.cons_append, List.length_cons, List.getD_cons_succ]
      exact list_getD_append_self t a d

theorem list_getD_set_self {α : Type _} :
    ∀ (l : List α) (n : ℕ) (a d : α), n < l.length → (l.set n a).getD n d = a
  | [], n, a, d, h => absurd h (by simp)
  | b :: t, 0, a, d, _ => rfl
  | b :: t, n + 1, a, d, h => by
      show (b :: t.set n a).getD (n + 1) d = a
      simp only [List.getD_cons_succ]
      exact list_getD_set_self t n a d (by simpa using h)

theorem list_getD_set_ne {α : Type _} :
    ∀ (l : List α) (n m2 : ℕ) (a d : α), ¬m2 = n → (l.set n a).getD m2 d = l.getD m2 d
  | [], _, _, _, _, _ => rfl
  | b :: t, 0, 0, a, d, h => absurd rfl h
  | b :: t, 0, m2 + 1, a, d, _ => by
      show (a :: t).getD (m2 + 1) d = (b :: t).getD (m2 + 1) d
      simp only [List.getD_cons_succ]
  | b :: t, n + 1, 0, a, d, _ => by
      show (b :: t.set n a).getD 0 d = (b :: t).getD 0 d
      simp only [List.getD_cons_zero]
  | b :: t, n + 1, m2 + 1, a, d, h => by
      show (b :: t.set n a).getD (m2 + 1) d = (b :: t).getD (m2 + 1) d
      simp only [List.getD_cons_succ]
      exact list_getD_set_ne t n m2 a d (fun hc => h (by omega))

theorem list_getD_mem {α : Type _} :
    ∀ (l : List α) (j : ℕ) (d : α), j < l.length → l.getD j d ∈ l
  | [], j, d, h => absurd h (by simp)
  | a :: t, 0, d, _ => by
      simp only [List.getD_cons_zero]
      exact List.mem_cons_self a t
  | a :: t, j + 1, d, h => by
      simp only [List.getD_cons_succ]
      exact List.mem_cons_of_mem a (list_getD_mem t j d (by simpa using h))

theorem list_all_congr {α : Type _} (l : List α) (f g : α → Bool)
    (h : ∀ x ∈ l, f x = g x) : l.all f = l.all g := by
  induction l with
  | nil => rfl
  | cons a t ih =>
      rw [List.all_cons, List.all_cons, h a (List.mem_cons_self a t),
        ih (fun x hx => h x (List.mem_cons_of_mem a hx))]

theorem hasNoMissingGenotype_congr (a b : Mat) (r : ℕ) (hcols : a.cols = b.cols)
    (hdat : ∀ k, k < b.cols → a.data r k = b.data r k) :
    hasNoMissingGenotype a r = hasNoMissingGenotype b r := by
  unfold hasNoMissingGenotype
  rw [hcols]
  exact list_all_congr _ _ _ (fun k hk => by rw [hdat k (List.mem_range.mp hk)])

theorem hasNoMissingGenotype_spec (g : Mat) (r : ℕ) (h : hasNoMissingGenotype g r = true)
    (k : ℕ) (hk : k < g.cols) : 0 ≤ g.data r k := by
  unfold hasNoMissingGenotype at h
  rw [List.all_eq_true] at h
  have h2 := h k (List.mem_range.mpr hk)
  simp only [Bool.not_eq_true', decide_eq_false_iff_not] at h2
  exact not_lt.mp h2

theorem keepRows_succ_pos (geno : Mat) (i : ℕ) (h : hasNoMissingGenotype geno i = true) :
    keepRows geno (i + 1) = keepRows geno i ++ [i] := by
  unfold keepRows
  rw [List.range_succ, List.filter_append, List.filter_cons_of_pos h, List.filter_nil]

theorem keepRows_succ_neg (geno : Mat) (i : ℕ) (h : ¬hasNoMissingGenotype geno i = true) :
    keepRows geno (i + 1) = keepRows geno i := by
  unfold keepRows
  rw [List.range_succ, List.filter_append, List.filter_cons_of_neg (by simpa using h),
    List.filter_nil, List.append_nil]

theorem keepRows_length_le (geno : Mat) (i : ℕ) : (keepRows geno i).length ≤ i := by
  unfold keepRows
  calc (List.filter _ (List.range i)).length ≤ (List.range i).length :=
        List.length_filter_le _ _
    _ = i := List.length_range i

theorem copyRow_cols (src : Mat) (srcRow : ℕ) (dest : Mat) (destRow : ℕ)
    (hc : ¬dest.cols < src.cols) :
    (copyRow src srcRow dest destRow).cols = dest.cols := by
  simp only [copyRow]
  rw [if_neg hc]
  split <;> rfl

theorem copyRow_rows_of_fit (src : Mat) (srcRow : ℕ) (dest : Mat) (destRow : ℕ)
    (hc : ¬dest.cols < src.cols) (hr : ¬dest.rows ≤ destRow) :
    (copyRow src srcRow dest destRow).rows = dest.rows := by
  simp only [copyRow]
  rw [if_neg hc, if_neg hr]

theorem copyRow_data (src : Mat) (srcRow : ℕ) (dest : Mat) (destRow : ℕ)
    (hc : ¬dest.cols < src.cols) :
    (copyRow src srcRow dest destRow).data = fun r c =>
      if r = destRow ∧ c < dest.cols then src.data srcRow c else dest.data r c := by
  simp only [copyRow]
  rw [if_neg hc]
  split <;> rfl

theorem dropInv_step (geno cov pheno : Mat) (origLab lab0 : List String) (i : ℕ) (s : DropSt)
    (hi : i < geno.rows) (inv : DropInv geno cov pheno origLab lab0 i s) :
    DropInv geno cov pheno origLab lab0 (i + 1) (dropStep cov pheno origLab s i) := by
  have hidxle : s.idx ≤ i := by
    rw [inv.hidx]
    exact keepRows_length_le geno i
  have hguard : hasNoMissingGenotype s.g i = hasNoMissingGenotype geno i :=
    hasNoMissingGenotype_congr s.g geno i inv.hgcols (fun k _ => inv.hghigh i k hidxle)
  unfold dropStep
  by_cases hdrop : hasNoMissingGenotype geno i = true
  · rw [if_pos (hguard.trans hdrop)]
    have hkeep : keepRows geno (i + 1) = keepRows geno i ++ [i] :=
      keepRows_succ_pos geno i hdrop
    have hlen1 : (keepRows geno (i + 1)).length = (keepRows geno i).length + 1 := by
      rw [hkeep, List.length_append, List.length_cons, List.length_nil]
    have hgetD_last : (keepRows geno (i + 1)).getD s.idx 0 = i := by
      rw [hkeep, inv.hidx]
      exact list_getD_append_self _ i 0
    have hgetD_lt : ∀ j, j < s.idx → (keepRows geno (i + 1)).getD j 0 =
        (keepRows geno i).getD j 0 := fun j hj => by
      rw [hkeep]
      exact list_getD_append_left _ _ j 0 (by rw [← inv.hidx]; exact hj)
    have hgc : ¬s.g.cols < s.g.cols := lt_irrefl _
    have hgr : ¬s.g.rows ≤ s.idx := by
      rw [inv.hgrows]
      omega
    have hgdata := copyRow_data s.g i s.g s.idx hgc
    have hcc : ¬s.c.cols < cov.cols := by
      rw [inv.hccols]
      exact lt_irrefl _
    have hcdata := copyRow_data cov i s.c s.idx hcc
    have hpc : ¬s.p.cols < pheno.cols := by
      rw [inv.hpcols]
      exact lt_irrefl _
    have hpdata := copyRow_data pheno i s.p s.idx hpc
    refine ⟨?_, ?_, ?_, ?_, ?_, ?_, ?_, ?_, ?_, ?_, ?_⟩
    · show s.idx + 1 = (keepRows geno (i + 1)).length
      rw [hlen1, inv.hidx]
    · show (copyRow s.g i s.g s.idx).rows = geno.rows
      rw [copyRow_rows_of_fit s.g i s.g s.idx hgc hgr, inv.hgrows]
    · show (copyRow s.g i s.g s.idx).cols = geno.cols
      rw [copyRow_cols s.g i s.g s.idx hgc, inv.hgcols]
    · intro r k hr
      have hr2 : s.idx + 1 ≤ r := hr
      show (copyRow s.g i s.g s.idx).data r k = geno.data r k
      simp only [hgdata]
      rw [if_neg (fun hcon => by omega)]
      exact inv.hghigh r k (by omega)
    · intro j k hj hk
      have hj2 : j < s.idx + 1 := hj
      show (copyRow s.g i s.g s.idx).data j k = geno.data ((keepRows geno (i + 1)).getD j 0) k
      simp only [hgdata]
      by_cases hji : j = s.idx
      · rw [if_pos ⟨hji, by rw [inv.hgcols]; exact hk⟩, hji, hgetD_last]
        exact inv.hghigh i k hidxle
      · rw [if_neg (fun hcon => hji hcon.1), hgetD_lt j (by omega)]
        exact inv.hglow j k (by omega) hk
    · show (copyRow cov i s.c s.idx).cols = cov.cols
      rw [copyRow_cols cov i s.c s.idx hcc, inv.hccols]
    · intro j k hj hk
      have hj2 : j < s.idx + 1 := hj
      show (copyRow cov i s.c s.idx).data j k = cov.data ((keepRows geno (i + 1)).getD j 0) k
      simp only [hcdata]
      by_cases hji : j = s.idx
      · rw [if_pos ⟨hji, by rw [inv.hccols]; exact hk⟩, hji, hgetD_last]
      · rw [if_neg (fun hcon => hji hcon.1), hgetD_lt j (by omega)]
        exact inv.hclow j k (by omega) hk
    · show (copyRow pheno i s.p s.idx).cols = pheno.cols
      rw [copyRow_cols pheno i s.p s.idx hpc, inv.hpcols]
    · intro j k hj hk
      have hj2 : j < s.idx + 1 := hj
      show (copyRow pheno i s.p s.idx).data j k = pheno.data ((keepRows geno (i + 1)).getD j 0) k
      simp only [hpdata]
      by_cases hji : j = s.idx
      · rw [if_pos ⟨hji, by rw [inv.hpcols]; exact hk⟩, hji, hgetD_last]
      · rw [if_neg (fun hcon => hji hcon.1), hgetD_lt j (by omega)]
        exact inv.hplow j k (by omega) hk
    · show (s.lab.set s.idx (origLab.getD i emptyLabel)).length = lab0.length
      rw [List.length_set, inv.hlablen]
    · intro hlen j hj
      have hj2 : j < s.idx + 1 := hj
      show (s.lab.set s.idx (origLab.getD i emptyLabel)).getD j emptyLabel =
        origLab.getD ((keepRows geno (i + 1)).getD j 0) emptyLabel
      by_cases hji : j = s.idx
      · rw [hji, list_getD_set_self _ _ _ _ (by rw [inv.hlablen]; omega), hgetD_last]
      · rw [list_getD_set_ne _ _ _ _ _ hji, hgetD_lt j (by omega)]
        exact inv.hlablow hlen j (by omega)
  · rw [if_neg (by rw [hguard]; exact hdrop)]
    have hkeep := keepRows_succ_neg geno i hdrop
    exact ⟨by rw [hkeep]; exact inv.hidx, inv.hgrows, inv.hgcols, inv.hghigh,
      fun j k hj hk => by rw [hkeep]; exact inv.hglow j k hj hk, inv.hccols,
      fun j k hj hk => by rw [hkeep]; exact inv.hclow j k hj hk, inv.hpcols,
      fun j k hj hk => by rw [hkeep]; exact inv.hplow j k hj hk, inv.hlablen,
      fun hlen j hj => by rw [hkeep]; exact inv.hlablow hlen j hj⟩

theorem dropInv_range (geno cov pheno : Mat) (origLab lab0 : List String) (s0 : DropSt)
    (h0 : DropInv geno cov pheno origLab lab0 0 s0) :
    ∀ i, i ≤ geno.rows →
      DropInv geno cov pheno origLab lab0 i
        ((List.range i).foldl (dropStep cov pheno origLab) s0) := by
  intro i
  induction i with
  | zero => intro _; simpa using h0
  | succ i ih =>
      intro hle
      rw [List.range_succ, List.foldl_append, List.foldl_cons, List.foldl_nil]
      exact dropInv_step geno cov pheno origLab lab0 i _ (by omega) (ih (by omega))

theorem dropRun_inv (dc : DataConsolidator) (pheno cov geno : Mat) :
    DropInv geno cov pheno dc.originalRowLabel dc.rowLabel geno.rows
      (dropRun dc pheno cov geno) := by
  unfold dropRun
  exact dropInv_range geno cov pheno dc.originalRowLabel dc.rowLabel _
    ⟨rfl, rfl, rfl, fun _ _ _ => rfl,
      fun j _ hj _ => absurd hj (Nat.not_lt_zero j), rfl,
      fun j _ hj _ => absurd hj (Nat.not_lt_zero j), rfl,
      fun j _ hj _ => absurd hj (Nat.not_lt_zero j), rfl,
      fun _ j hj => absurd hj (Nat.not_lt_zero j)⟩
    geno.rows (le_refl _)

/-- C2: under strategy DROP (inputs sharing a row count), the stored
genotype after `consolidate` has exactly the complete input rows — its
row count is the number of input rows with no negative entry, its rows
are those input rows in their original relative order (the strictly
increasing index list `keepRows`), every entry in its window is
non-negative, and the stored phenotype and covariate rows are selected
in lock-step from the same retained indices. -/
theorem consolidate_drop_complete (dc : DataConsolidator) (pheno cov geno : Mat)
    (hs : dc.strategy = DataConsolidator.DROP)
    (hp : pheno.rows = geno.rows) (hc : cov.rows = geno.rows) :
    (consolidate dc pheno cov geno).genotype.rows = (keepRows geno geno.rows).length ∧
      (consolidate dc pheno cov geno).phenotype.rows = (keepRows geno geno.rows).length ∧
      (consolidate dc pheno cov geno).covariate.rows = (keepRows geno geno.rows).length ∧
      (consolidate dc pheno cov geno).genotype.cols = geno.cols ∧
      (consolidate dc pheno cov geno).phenotype.cols = pheno.cols ∧
      (consolidate dc pheno cov geno).covariate.cols = cov.cols ∧
      List.Pairwise (· < ·) (keepRows geno geno.rows) ∧
      (∀ j, j ∈ keepRows geno geno.rows → j < geno.rows ∧
        hasNoMissingGenotype geno j = true) ∧
      (∀ j k, j < (keepRows geno geno.rows).length → k < geno.cols →
        (consolidate dc pheno cov geno).genotype.data j k =
            geno.data ((keepRows geno geno.rows).getD j 0) k ∧
          0 ≤ (consolidate dc pheno cov geno).genotype.data j k) ∧
      (∀ j k, j < (keepRows geno geno.rows).length → k < pheno.cols →
        (consolidate dc pheno cov geno).phenotype.data j k =
          pheno.data ((keepRows geno geno.rows).getD j 0) k) ∧
      (∀ j k, j < (keepRows geno geno.rows).length → k < cov.cols →
        (consolidate dc pheno cov geno).covariate.data j k =
          cov.data ((keepRows geno geno.rows).getD j 0) k) := by
  rw [consolidate_drop_eq dc pheno cov geno hs]
  have inv := dropRun_inv dc pheno cov geno
  have hmem : ∀ j, j ∈ keepRows geno geno.rows → j < geno.rows ∧
      hasNoMissingGenotype geno j = true := by
    intro j hj
    unfold keepRows at hj
    rw [List.mem_filter] at hj
    exact ⟨List.mem_range.mp hj.1, hj.2⟩
  refine ⟨inv.hidx, inv.hidx, inv.hidx, inv.hgcols, rfl, rfl, ?_, hmem, ?_, ?_, ?_⟩
  · exact List.Pairwise.filter _ (List.pairwise_lt_range geno.rows)
  · intro j k hj hk
    have hval := inv.hglow j k (by rw [inv.hidx]; exact hj) hk
    have hkmem := hmem _ (list_getD_mem _ j 0 hj)
    exact ⟨hval, by
      rw [show ({ dc with
          originalGenotype := copyColName geno geno
          genotype := (dropRun dc pheno cov geno).g.Dimension (dropRun dc pheno cov geno).idx
            (dropRun dc pheno cov geno).g.cols
          covariate := (dropRun dc pheno cov geno).c.Dimension (dropRun dc pheno cov geno).idx
            cov.cols
          phenotype := (dropRun dc pheno cov geno).p.Dimension (dropRun dc pheno cov geno).idx
            pheno.cols
          rowLabel := (dropRun dc pheno cov geno).lab
          phenotypeUpdated := true
          covariateUpdated := true } : DataConsolidator).genotype.data j k =
          (dropRun dc pheno cov geno).g.data j k from rfl, hval]
      exact hasNoMissingGenotype_spec geno _ hkmem.2 k hk⟩
  · intro j k hj hk
    exact inv.hplow j k (by rw [inv.hidx]; exact hj) hk
  · intro j k hj hk
    exact inv.hclow j k (by rw [inv.hidx]; exact hj) hk

/-- Witness for C2 at a concrete DROP run: of the rows `[0,1]`, `[-1,2]`,
`[2,0]` only rows 0 and 2 are complete; the consolidated genotype has 2
rows, its row 1 is input row 2, and phenotype/covariate follow in
lock-step. -/
theorem consolidate_drop_complete_witness :
    (consolidate dcC2 phC2 cvC2 gC2).genotype.rows = 2 ∧
      (consolidate dcC2 phC2 cvC2 gC2).genotype.data 1 0 = 2 ∧
      (consolidate dcC2 phC2 cvC2 gC2).phenotype.data 1 0 = 7 ∧
      (consolidate dcC2 phC2 cvC2 gC2).covariate.data 1 0 = 3 := by
  have h0 : hasNoMissingGenotype gC2 0 = true := by
    unfold hasNoMissingGenotype
    rw [show List.range gC2.cols = [0, 1] from rfl]
    norm_num [gC2, mkMat, List.getD_cons_zero, List.getD_cons_succ]
  have h1 : hasNoMissingGenotype gC2 1 = false := by
    unfold hasNoMissingGenotype
    rw [show List.range gC2.cols = [0, 1] from rfl]
    norm_num [gC2, mkMat, List.getD_cons_zero, List.getD_cons_succ]
  have h2 : hasNoMissingGenotype gC2 2 = true := by
    unfold hasNoMissingGenotype
    rw [show List.range gC2.cols = [0, 1] from rfl]
    norm_num [gC2, mkMat, List.getD_cons_zero, List.getD_cons_succ]
  have hkeep : keepRows gC2 gC2.rows = [0, 2] := by
    unfold keepRows
    rw [show List.range gC2.rows = [0, 1, 2] from rfl, List.filter_cons_of_pos h0,
      List.filter_cons_of_neg (by simp [h1]), List.filter_cons_of_pos h2, List.filter_nil]
  have h := consolidate_drop_complete dcC2 phC2 cvC2 gC2 rfl rfl rfl
  refine ⟨?_, ?_, ?_, ?_⟩
  · rw [h.1, hkeep]
    rfl
  · have hv := (h.2.2.2.2.2.2.2.2.1 1 0 (by rw [hkeep]; norm_num)
      (by norm_num [gC2, mkMat])).1
    rw [hv, hkeep]
    norm_num [gC2, mkMat, List.getD_cons_zero, List.getD_cons_succ]
  · have hv := h.2.2.2.2.2.2.2.2.2.1 1 0 (by rw [hkeep]; norm_num)
      (by norm_num [phC2, mkMat])
    rw [hv, hkeep]
    norm_num [phC2, mkMat, List.getD_cons_zero, List.getD_cons_succ]
  · have hv := h.2.2.2.2.2.2.2.2.2.2 1 0 (by rw [hkeep]; norm_num)
      (by norm_num [cvC2, mkMat])
    rw [hv, hkeep]
    norm_num [cvC2, mkMat, List.getD_cons_zero, List.getD_cons_succ]

/-- C8 amended: after `consolidate` under DROP, given a row-label list
at least as long as the genotype row count (as `setPhenotypeName`
establishes), the k-th entry of `getRowLabel` for every k below the
retained-row count is the original row label of the k-th retained input
row; the list is however NOT shortened: it keeps its full prior length,
so entries at or beyond the retained count are stale. -/
theorem consolidate_drop_rowLabel (dc : DataConsolidator) (pheno cov geno : Mat)
    (hs : dc.strategy = DataConsolidator.DROP)
    (hlen : geno.rows ≤ dc.rowLabel.length) :
    (consolidate dc pheno cov geno).getRowLabel.length = dc.rowLabel.length ∧
      ∀ j, j < (keepRows geno geno.rows).length →
        (consolidate dc pheno cov geno).getRowLabel.getD j emptyLabel =
          dc.originalRowLabel.getD ((keepRows geno geno.rows).getD j 0) emptyLabel := by
  rw [consolidate_drop_eq dc pheno cov geno hs]
  have inv := dropRun_inv dc pheno cov geno
  exact ⟨inv.hlablen, fun j hj => inv.hlablow hlen j (by rw [inv.hidx]; exact hj)⟩

/-- Witness for C8's amended statement at a concrete DROP run with
labels `[a, b]` and complete row 0 only: entry 0 of the resulting label
list is `a`, and the list length stays 2. -/
theorem consolidate_drop_rowLabel_witness :
    (consolidate dcC8 phC8 cvC8 gC8).getRowLabel.length = 2 ∧
      (consolidate dcC8 phC8 cvC8 gC8).getRowLabel.getD 0 emptyLabel = labA := by
  have h0 : hasNoMissingGenotype gC8 0 = true := by
    unfold hasNoMissingGenotype
    rw [show List.range gC8.cols = [0] from rfl]
    norm_num [gC8, mkMat, List.getD_cons_zero, List.getD_cons_succ]
  have h1 : hasNoMissingGenotype gC8 1 = false := by
    unfold hasNoMissingGenotype
    rw [show List.range gC8.cols = [0] from rfl]
    norm_num [gC8, mkMat, List.getD_cons_zero, List.getD_cons_succ]
  have hkeep : keepRows gC8 gC8.rows = [0] := by
    unfold keepRows
    rw [show List.range gC8.rows = [0, 1] from rfl, List.filter_cons_of_pos h0,
      List.filter_cons_of_neg (by simp [h1]), List.filter_nil]
  have h := consolidate_drop_rowLabel dcC8 phC8 cvC8 gC8 rfl (by norm_num [dcC8, mkDC, gC8, mkMat])
  refine ⟨h.1, ?_⟩
  have hv := h.2 0 (by rw [hkeep]; norm_num)
  rw [hv, hkeep]
  rfl

/-- Counterexample to C8 as stated: with labels `[a, b]` and only one of
two rows retained, `getRowLabel` still has length 2 after `consolidate`
under DROP, not the claimed retained-row count 1 — the label list is not
recompacted in length. -/
theorem consolidate_drop_rowLabel_cex :
    (consolidate dcC8 phC8 cvC8 gC8).getRowLabel.length = 2 ∧
      (keepRows gC8 gC8.rows).length = 1 ∧
      ¬(consolidate dcC8 phC8 cvC8 gC8).getRowLabel.length =
        (keepRows gC8 gC8.rows).length := by
  have h0 : hasNoMissingGenotype gC8 0 = true := by
    unfold hasNoMissingGenotype
    rw [show List.range gC8.cols = [0] from rfl]
    norm_num [gC8, mkMat, List.getD_cons_zero, List.getD_cons_succ]
  have h1 : hasNoMissingGenotype gC8 1 = false := by
    unfold hasNoMissingGenotype
    rw [show List.range gC8.cols = [0] from rfl]
    norm_num [gC8, mkMat, List.getD_cons_zero, List.getD_cons_succ]
  have hkeep : keepRows gC8 gC8.rows = [0] := by
    unfold keepRows
    rw [show List.range gC8.rows = [0, 1] from rfl, List.filter_cons_of_pos h0,
      List.filter_cons_of_neg (by simp [h1]), List.filter_nil]
  have inv := dropRun_inv dcC8 phC8 cvC8 gC8
  have hlen1 : (consolidate dcC8 phC8 cvC8 gC8).getRowLabel.length = 2 := by
    rw [consolidate_drop_eq dcC8 phC8 cvC8 gC8 rfl]
    exact inv.hlablen
  refine ⟨hlen1, by rw [hkeep]; rfl, ?_⟩
  rw [hlen1, hkeep]
  norm_num

/-! Claim C9 — determinism of frequency-based imputation. -/

theorem foldl_rel {α β γ : Type _} (R : α → γ → Prop) (f : α → β → α) (g : γ → β → γ) :
    ∀ (l : List β) (a : α) (c : γ), R a c →
      (∀ x y b, b ∈ l → R x y → R (f x b) (g y b)) → R (l.foldl f a) (l.foldl g c)
  | [], _, _, h0, _ => h0
  | b :: t, a, c, h0, hstep =>
      foldl_rel R f g t (f a b) (g c b) (hstep a c b (List.mem_cons_self b t) h0)
        (fun x y d hd hxy => hstep x y d (List.mem_cons_of_mem b hd) hxy)

theorem colAcAn_weq (a b : Mat) (i : ℕ) (hw : a.WEq b) (hi : i < b.cols) :
    colAcAn a i = colAcAn b i := by
  unfold colAcAn
  rw [hw.1]
  apply List.foldl_ext
  intro acc j hj
  have hjr : j < a.rows := by
    rw [hw.1]
    exact List.mem_range.mp hj
  have hic : i < a.cols := by
    rw [hw.2.1]
    exact hi
  unfold acAnStep
  rw [hw.2.2 j i hjr hic]

theorem hweImputeCell_rel (i : ℕ) (pRef pHet : ℚ) (a b : Mat × RandSrc) (j : ℕ)
    (hw : a.1.WEq b.1) (hr : a.2.SEq b.2) (hj : j < b.1.rows) (hi : i < b.1.cols) :
    (hweImputeCell i pRef pHet a j).1.WEq (hweImputeCell i pRef pHet b j).1 ∧
      (hweImputeCell i pRef pHet a j).2.SEq (hweImputeCell i pRef pHet b j).2 := by
  have hjr : j < a.1.rows := by
    rw [hw.1]
    exact hj
  have hic : i < a.1.cols := by
    rw [hw.2.1]
    exact hi
  have hdat : a.1.data j i = b.1.data j i := hw.2.2 j i hjr hic
  have hv : a.2.next.1 = b.2.next.1 := by
    show a.2.stream a.2.pos = b.2.stream b.2.pos
    rw [hr.2, hr.1]
  unfold hweImputeCell
  by_cases hneg : b.1.data j i < 0
  · rw [if_pos (by rw [hdat]; exact hneg), if_pos hneg]
    constructor
    · refine ⟨hw.1, hw.2.1, ?_⟩
      intro r c hrr hcc
      show updD a.1.data j i (if a.2.next.1 < pRef then 0 else if a.2.next.1 < pHet then 1 else 2)
          r c =
        updD b.1.data j i (if b.2.next.1 < pRef then 0 else if b.2.next.1 < pHet then 1 else 2)
          r c
      unfold updD
      by_cases hrc : r = j ∧ c = i
      · rw [if_pos hrc, if_pos hrc, hv]
      · rw [if_neg hrc, if_neg hrc]
        exact hw.2.2 r c hrr hcc
    · refine ⟨?_, fun k => hr.2 k⟩
      show a.2.pos + 1 = b.2.pos + 1
      rw [hr.1]
  · rw [if_neg (by rw [hdat]; exact hneg), if_neg hneg]
    exact ⟨hw, hr⟩

theorem hweImputeCol_rel (a b : Mat × RandSrc) (i : ℕ)
    (hw : a.1.WEq b.1) (hr : a.2.SEq b.2) (hi : i < b.1.cols) :
    (hweImputeCol a i).1.WEq (hweImputeCol b i).1 ∧
      (hweImputeCol a i).2.SEq (hweImputeCol b i).2 := by
  unfold hweImputeCol
  rw [colAcAn_weq a.1 b.1 i hw hi, hw.1]
  have H := foldl_rel
    (fun x y : Mat × RandSrc =>
      x.1.WEq y.1 ∧ x.2.SEq y.2 ∧ y.1.rows = b.1.rows ∧ y.1.cols = b.1.cols)
    (hweImputeCell i
      ((if (colAcAn b.1 i).2 = 0 then 0 else ((colAcAn b.1 i).1 : ℚ) / ((colAcAn b.1 i).2 : ℚ)) *
        (if (colAcAn b.1 i).2 = 0 then 0 else ((colAcAn b.1 i).1 : ℚ) / ((colAcAn b.1 i).2 : ℚ)))
      ((if (colAcAn b.1 i).2 = 0 then 0 else ((colAcAn b.1 i).1 : ℚ) / ((colAcAn b.1 i).2 : ℚ)) *
        (if (colAcAn b.1 i).2 = 0 then 0 else ((colAcAn b.1 i).1 : ℚ) / ((colAcAn b.1 i).2 : ℚ)) +
        2 * (if (colAcAn b.1 i).2 = 0 then 0
          else ((colAcAn b.1 i).1 : ℚ) / ((colAcAn b.1 i).2 : ℚ)) *
        (1 - (if (colAcAn b.1 i).2 = 0 then 0
          else ((colAcAn b.1 i).1 : ℚ) / ((colAcAn b.1 i).2 : ℚ)))))
    (hweImputeCell i
      ((if (colAcAn b.1 i).2 = 0 then 0 else ((colAcAn b.1 i).1 : ℚ) / ((colAcAn b.1 i).2 : ℚ)) *
        (if (colAcAn b.1 i).2 = 0 then 0 else ((colAcAn b.1 i).1 : ℚ) / ((colAcAn b.1 i).2 : ℚ)))
      ((if (colAcAn b.1 i).2 = 0 then 0 else ((colAcAn b.1 i).1 : ℚ) / ((colAcAn b.1 i).2 : ℚ)) *
        (if (colAcAn b.1 i).2 = 0 then 0 else ((colAcAn b.1 i).1 : ℚ) / ((colAcAn b.1 i).2 : ℚ)) +
        2 * (if (colAcAn b.1 i).2 = 0 then 0
          else ((colAcAn b.1 i).1 : ℚ) / ((colAcAn b.1 i).2 : ℚ)) *
        (1 - (if (colAcAn b.1 i).2 = 0 then 0
          else ((colAcAn b.1 i).1 : ℚ) / ((colAcAn b.1 i).2 : ℚ)))))
    (List.range b.1.rows) a b ⟨hw, hr, rfl, rfl⟩
    (fun x y d hd hxy =>
      ⟨(hweImputeCell_rel i _ _ x y d hxy.1 hxy.2.1
          (by rw [hxy.2.2.1]; exact List.mem_range.mp hd)
          (by rw [hxy.2.2.2]; exact hi)).1,
        (hweImputeCell_rel i _ _ x y d hxy.1 hxy.2.1
          (by rw [hxy.2.2.1]; exact List.mem_range.mp hd)
          (by rw [hxy.2.2.2]; exact hi)).2,
        (hweImputeCell_dims i _ _ y d).1.trans hxy.2.2.1,
        (hweImputeCell_dims i _ _ y d).2.trans hxy.2.2.2⟩)
  exact ⟨H.1, H.2.1⟩

/-- C9: frequency-based (HWE) imputation is deterministic given its
random source: two runs on matrices with equal dims and equal window
content, with random sources in equal states (same stream and same
position within it), produce window-equal output matrices and equally
advanced sources. -/
theorem imputeGenotypeByFrequency_deterministic (m1 m2 : Mat) (r1 r2 : RandSrc)
    (hm : m1.WEq m2) (hr : r1.SEq r2) :
    (imputeGenotypeByFrequency m1 r1).1.WEq (imputeGenotypeByFrequency m2 r2).1 ∧
      (imputeGenotypeByFrequency m1 r1).2.SEq (imputeGenotypeByFrequency m2 r2).2 := by
  unfold imputeGenotypeByFrequency
  rw [hm.2.1]
  have H := foldl_rel
    (fun x y : Mat × RandSrc =>
      x.1.WEq y.1 ∧ x.2.SEq y.2 ∧ y.1.rows = m2.rows ∧ y.1.cols = m2.cols)
    hweImputeCol hweImputeCol (List.range m2.cols) (m1, r1) (m2, r2) ⟨hm, hr, rfl, rfl⟩
    (fun x y d hd hxy =>
      ⟨(hweImputeCol_rel x y d hxy.1 hxy.2.1 (by rw [hxy.2.2.2]; exact List.mem_range.mp hd)).1,
        (hweImputeCol_rel x y d hxy.1 hxy.2.1
          (by rw [hxy.2.2.2]; exact List.mem_range.mp hd)).2,
        (hweImputeCol_dims y d).1.trans hxy.2.2.1,
        (hweImputeCol_dims y d).2.trans hxy.2.2.2⟩)
  exact ⟨H.1, H.2.1⟩

/-- Witness for C9 at a concrete 1-by-1 matrix with a missing cell and a
fixed random source. -/
theorem imputeGenotypeByFrequency_deterministic_witness :
    (imputeGenotypeByFrequency mC9 rSrc0).1.WEq (imputeGenotypeByFrequency mC9 rSrc0).1 ∧
      (imputeGenotypeByFrequency mC9 rSrc0).2.SEq (imputeGenotypeByFrequency mC9 rSrc0).2 :=
  imputeGenotypeByFrequency_deterministic mC9 mC9 rSrc0 rSrc0
    ⟨rfl, rfl, fun _ _ _ _ => rfl⟩ ⟨rfl, fun _ => rfl⟩
